import Mathlib

/-!
Verification of the `jsdom-extended` package against its specification.

The package consists of four patch functions (`patchGeometry`, `patchRAF`,
`patchResizeObserver`, `patchLocation`), supporting location helper
functions, and a composer `applyJsdomExtended`.  Each section below embeds
one source module as executable Lean definitions and proves (or refutes)
the specification claims about it.
-/

namespace JsdomExtended

/-! ## Location helpers (src/mocks/location.ts)

The location object is host-owned (jsdom); the helper functions only read
it.  We embed a location as a record of the nine string-valued properties
the helpers touch.  `patchLocation` only emits a console warning; we make
the emitted warnings explicit by returning them, together with the
(unchanged) window, so that "emits exactly one diagnostic" and "never
mutates the location" are statable. -/

/-- The nine properties of a DOM `Location` object that the helpers read. -/
structure Location where
  href : String
  origin : String
  protocol : String
  host : String
  hostname : String
  port : String
  pathname : String
  search : String
  hash : String
deriving Repr, DecidableEq

/-- A window, as far as the location helpers are concerned. -/
structure LocWindow where
  location : Location
deriving Repr, DecidableEq

/-- The warning text emitted by `patchLocation` (location.ts, the
`console.warn` call). -/
def locationWarnText : String :=
  "[jsdom-extended] window.location is about:blank. " ++
  "For full location support, create JSDOM with a URL: " ++
  "new JSDOM(html, \x7b url: \"http://localhost/\" \x7d)"

/-- `patchLocation` from location.ts: warns when `location.href` is the
`about:blank` sentinel.  Returns the list of emitted warnings and the
resulting window (which the source never touches). -/
def patchLocation (w : LocWindow) : List String × LocWindow :=
  if w.location.href = "about:blank" then ([locationWarnText], w) else ([], w)

/-- `hasValidLocation` from location.ts: `win.location.href !== 'about:blank'`. -/
def hasValidLocation (w : LocWindow) : Bool :=
  w.location.href != "about:blank"

/-- The record returned by `getLocationInfo` (location.ts): a plain object
built by destructuring `win.location`. -/
structure LocationInfo where
  href : String
  origin : String
  protocol : String
  host : String
  hostname : String
  port : String
  pathname : String
  search : String
  hash : String
deriving Repr, DecidableEq

/-- `getLocationInfo` from location.ts: destructures the nine location
properties into a fresh plain object. -/
def getLocationInfo (loc : Location) : LocationInfo :=
  { href := loc.href
    origin := loc.origin
    protocol := loc.protocol
    host := loc.host
    hostname := loc.hostname
    port := loc.port
    pathname := loc.pathname
    search := loc.search
    hash := loc.hash }

/-- The fields of the snapshot record, in declaration order. -/
def locationInfoFields (i : LocationInfo) : List String :=
  [i.href, i.origin, i.protocol, i.host, i.hostname, i.port, i.pathname, i.search, i.hash]

/-- A concrete, fully populated location used for counterexamples. -/
def exampleLocation : Location :=
  { href := "http://localhost:3000/about?q=1#top"
    origin := "http://localhost:3000"
    protocol := "http:"
    host := "localhost:3000"
    hostname := "localhost"
    port := "3000"
    pathname := "/about"
    search := "?q=1"
    hash := "#top" }

/-! ## Resize-observer shim (src/mocks/resize-observer.ts)

`FakeResizeObserver` stores a callback and, on `observe`, synchronously
calls it once.  We keep the callback type `κ` and the element type `α`
opaque and record each callback invocation (which callback was called,
with which entry list, and which observer was passed as second argument)
explicitly: an operation returns the list of invocations it performs
before returning, so "synchronously, exactly once" is the length of that
list. -/

/-- The `contentRect` payload reported by the shim. -/
structure ROContentRect where
  width : Int
  height : Int
deriving Repr, DecidableEq

/-- One element of the entry sequence passed to the callback. -/
structure ResizeObserverEntry (α : Type) where
  target : α
  contentRect : ROContentRect

/-- The observer: the constructor body is `this.cb = cb` and nothing else. -/
structure FakeResizeObserver (κ : Type) where
  cb : κ

/-- A record of one callback invocation performed by the shim: the stored
callback is applied to an entry list (first argument) and an observer
(second argument, `this` in the source). -/
structure ResizeCallbackCall (α κ : Type) where
  callback : κ
  entries : List (ResizeObserverEntry α)
  observerArg : FakeResizeObserver κ

/-- The constructor of `FakeResizeObserver`: stores the callback. -/
def FakeResizeObserver.construct {κ : Type} (cb : κ) : FakeResizeObserver κ :=
  { cb := cb }

/-- The callback invocations performed by the constructor body (which
only assigns `this.cb`; it calls nothing). -/
def FakeResizeObserver.constructCalls (α : Type) {κ : Type} (_cb : κ) :
    List (ResizeCallbackCall α κ) :=
  []

/-- `observe(el)`: synchronously calls `this.cb` once, with a one-element
entry array `[\x7b target: el, contentRect: \x7b width: 100, height: 100 \x7d \x7d]`
and `this` as the second argument. -/
def FakeResizeObserver.observe {α κ : Type} (o : FakeResizeObserver κ) (el : α) :
    List (ResizeCallbackCall α κ) :=
  [{ callback := o.cb
     entries := [{ target := el, contentRect := { width := 100, height := 100 } }]
     observerArg := o }]

/-- `disconnect()`: empty body, performs no callback invocation. -/
def FakeResizeObserver.disconnect (α : Type) {κ : Type} (_o : FakeResizeObserver κ) :
    List (ResizeCallbackCall α κ) :=
  []

/-- `unobserve()`: empty body, performs no callback invocation. -/
def FakeResizeObserver.unobserve (α : Type) {κ : Type} (_o : FakeResizeObserver κ) :
    List (ResizeCallbackCall α κ) :=
  []

/-- A window, as far as `patchResizeObserver` is concerned: it carries the
currently installed `ResizeObserver` constructor, identified by a tag
(`none` when absent).  `FakeResizeObserver` is a single class value in the
source module, so installing it is installing tag `0`. -/
structure ROWindow where
  resizeObserverCtor : Option Nat
deriving Repr, DecidableEq

/-- The identity of the (single) `FakeResizeObserver` class value. -/
def fakeResizeObserverClassId : Nat := 0

/-- `patchResizeObserver` from resize-observer.ts:
`win.ResizeObserver = FakeResizeObserver`. -/
def patchResizeObserver (w : ROWindow) : ROWindow :=
  { w with resizeObserverCtor := some fakeResizeObserverClassId }

/-! ## Geometry patch (src/mocks/raf.ts, `patchGeometry`, lines 38-67)

`patchGeometry` installs its overrides with `Object.defineProperty`.  The
bounding-rectangle override is passed a descriptor containing only
`value` (a fresh function object per application), so the property is
created non-writable and non-configurable; the two viewport properties
are passed `writable: true, configurable: true`.  We embed the relevant
part of ECMAScript `DefineOwnProperty` validation for data properties:
redefining a non-configurable, non-writable property with a different
value raises a `TypeError`. -/

/-- A JavaScript value, as far as the geometry patch needs: numbers and
function objects.  Function objects are compared by identity, so each one
carries an allocation tag. -/
inductive JsValue where
  | undef : JsValue
  | num : Int → JsValue
  | fn : Nat → JsValue
deriving Repr, DecidableEq

/-- A (data) property descriptor as stored on an object. -/
structure PropDesc where
  value : JsValue
  writable : Bool
  configurable : Bool
deriving Repr, DecidableEq

/-- The descriptor argument passed to `Object.defineProperty`: each
attribute may be absent. -/
structure DescArg where
  value : Option JsValue
  writable : Option Bool
  configurable : Option Bool
deriving Repr, DecidableEq

/-- The own properties of an object, as a finite partial map. -/
abbrev PropMap := String → Option PropDesc

/-- The empty property map. -/
def emptyPropMap : PropMap := fun _ => none

/-- Point update of a property map. -/
def propUpdate (m : PropMap) (k : String) (d : PropDesc) : PropMap :=
  fun x => if x = k then some d else m x

/-- `Object.defineProperty` restricted to data properties on an extensible
object (ECMA-262 ValidateAndApplyPropertyDescriptor): a new property takes
`false` for every absent attribute; a configurable property may be
redefined freely; a non-configurable one rejects `configurable: true`,
rejects upgrading `writable`, and rejects a value change while
non-writable. -/
def defineProperty (m : PropMap) (k : String) (d : DescArg) : Except String PropMap :=
  match m k with
  | none =>
      .ok (propUpdate m k
        { value := d.value.getD .undef
          writable := d.writable.getD false
          configurable := d.configurable.getD false })
  | some cur =>
      if cur.configurable then
        .ok (propUpdate m k
          { value := d.value.getD cur.value
            writable := d.writable.getD cur.writable
            configurable := d.configurable.getD cur.configurable })
      else if d.configurable.getD false = true then
        .error "TypeError"
      else if d.writable.getD false = true ∧ cur.writable = false then
        .error "TypeError"
      else if cur.writable = false ∧ d.value.isSome = true ∧ d.value ≠ some cur.value then
        .error "TypeError"
      else
        .ok (propUpdate m k
          { value := d.value.getD cur.value
            writable := d.writable.getD cur.writable
            configurable := false })

/-- Reading a property (data properties only): the stored value. -/
def getProp (m : PropMap) (k : String) : Option JsValue :=
  (m k).map (·.value)

/-- Ordinary assignment `obj[k] = v`: succeeds on a writable data
property, silently does nothing on a non-writable one, and creates a
writable, configurable property when absent. -/
def setProp (m : PropMap) (k : String) (v : JsValue) : PropMap :=
  match m k with
  | some cur => if cur.writable then propUpdate m k { cur with value := v } else m
  | none => propUpdate m k { value := v, writable := true, configurable := true }

/-- The target of `patchGeometry`: the own properties of
`HTMLElement.prototype`, the own properties of the window, and the next
function-object allocation tag (each application of the patch allocates a
fresh `getBoundingClientRect` function). -/
structure GeomTarget where
  protoProps : PropMap
  winProps : PropMap
  nextFnId : Nat

/-- The body of the installed `getBoundingClientRect` override
(raf.ts lines 40-52): every call returns the same fixed rectangle,
whatever the element. -/
structure DOMRectLike where
  width : Int
  height : Int
  top : Int
  left : Int
  bottom : Int
  right : Int
  x : Int
  y : Int
deriving Repr, DecidableEq

/-- The function body installed as `getBoundingClientRect`: ignores the
element and returns the fixed rectangle. -/
def getBoundingClientRectImpl {α : Type} (_e : α) : DOMRectLike :=
  { width := 100, height := 50, top := 0, left := 0
    bottom := 50, right := 100, x := 0, y := 0 }

/-- `patchGeometry` from raf.ts lines 38-67: defines the bounding-rect
override on the element prototype (descriptor carries only `value`), then
the two viewport sizes on the window (`writable: true, configurable:
true`).  A `TypeError` from any `defineProperty` propagates, aborting the
remaining definitions, exactly as a thrown exception would. -/
def patchGeometry (t : GeomTarget) : Except String GeomTarget :=
  match defineProperty t.protoProps "getBoundingClientRect"
      { value := some (.fn t.nextFnId), writable := none, configurable := none } with
  | .error e => .error e
  | .ok p =>
    match defineProperty t.winProps "innerWidth"
        { value := some (.num 1280), writable := some true, configurable := some true } with
    | .error e => .error e
    | .ok w1 =>
      match defineProperty w1 "innerHeight"
          { value := some (.num 720), writable := some true, configurable := some true } with
      | .error e => .error e
      | .ok w2 => .ok { protoProps := p, winProps := w2, nextFnId := t.nextFnId + 1 }

/-- The window-level half of `patchGeometry` (raf.ts lines 55-67): just
the two viewport-size definitions. -/
def patchViewportSizes (m : PropMap) : Except String PropMap :=
  match defineProperty m "innerWidth"
      { value := some (.num 1280), writable := some true, configurable := some true } with
  | .error e => .error e
  | .ok m1 =>
    defineProperty m1 "innerHeight"
      { value := some (.num 720), writable := some true, configurable := some true }

/-- A target whose prototype and window have none of the patched
properties as own properties (jsdom defines `getBoundingClientRect` on
`Element.prototype`, not as an own property of `HTMLElement.prototype`). -/
def freshGeomTarget : GeomTarget :=
  { protoProps := emptyPropMap, winProps := emptyPropMap, nextFnId := 0 }

/-- Whether an `Except` result is a success. -/
def exceptIsOk {ε α : Type} : Except ε α → Bool
  | .ok _ => true
  | .error _ => false

/-- The window property map after one application of the viewport-size
definitions to an empty map. -/
def viewportOnceMap : PropMap :=
  propUpdate
    (propUpdate emptyPropMap "innerWidth"
      { value := .num 1280, writable := true, configurable := true })
    "innerHeight"
    { value := .num 720, writable := true, configurable := true }

/-- The target produced by one application of `patchGeometry` to
`freshGeomTarget`. -/
def patchedGeomTarget : GeomTarget :=
  { protoProps :=
      propUpdate emptyPropMap "getBoundingClientRect"
        { value := .fn 0, writable := false, configurable := false }
    winProps := viewportOnceMap
    nextFnId := 1 }

/-- Re-application of the geometry patch to the same target (the second
application only runs if the first succeeded, as in straight-line JS). -/
def patchGeometryTwice (t : GeomTarget) : Except String GeomTarget :=
  match patchGeometry t with
  | .error e => .error e
  | .ok t1 => patchGeometry t1

/-! ## Animation-frame shim (src/mocks/raf.ts, lines 1-29)

The module declares `const rafHandles = new Map()` at module level — one
map for the whole module, whatever the number of `patchRAF` calls — while
`let rafId = 0` is local to each `patchRAF` call, one counter per
installation.  We embed the whole module state:

* `rafHandles` — the module-level map from handle to timeout id, as a
  function (JS `Map` keys are unique; iteration order is never used);
* `counters` — the `rafId` of each installation so far, indexed by
  installation number in order of `patchRAF` calls;
* `timers` — the armed host timers `(timeoutId, installation, handle)`;
  firing or `clearTimeout` removes a timer;
* `nextTimeout` — fresh timeout ids from the host;
* `fired` — observation log of callback invocations `(installation,
  handle)`, appended when a timer fires (the source invokes `cb` there);
* `cancelled` — observation log of handles removed by a successful
  `cancelAnimationFrame` (the source's truthy branch).

`fired` and `cancelled` are pure observation logs: nothing in the shim
reads them. -/

structure RafState where
  rafHandles : Int → Option Nat
  counters : List Int
  timers : List (Nat × Nat × Int)
  nextTimeout : Nat
  fired : List (Nat × Int)
  cancelled : List Int

/-- The module state before any `patchRAF` call: empty map, no
installations, no timers. -/
def initialRafState : RafState :=
  { rafHandles := fun _ => none
    counters := []
    timers := []
    nextTimeout := 0
    fired := []
    cancelled := [] }

/-- Point update of the module-level handle map. -/
def mapSet (m : Int → Option Nat) (k : Int) (v : Option Nat) : Int → Option Nat :=
  fun x => if x = k then v else m x

/-- `patchRAF(win)` (raf.ts lines 11-29): creates a fresh closure-local
counter `rafId = 0` and installs the two override closures.  Returns the
index identifying this installation. -/
def patchRAF (s : RafState) : Nat × RafState :=
  (s.counters.length, { s with counters := s.counters ++ [0] })

/-- The `requestAnimationFrame` closure of installation `i`
(raf.ts lines 13-20): `const id = ++rafId`, arm a 16 ms timeout whose
action deletes `id` from the module map and invokes the callback, then
`rafHandles.set(id, timeoutId)` and return `id`.  (An index with no
installation leaves the state unchanged; the theorems only ever use
indices returned by `patchRAF`.) -/
def requestAnimationFrame (i : Nat) (s : RafState) : Int × RafState :=
  match s.counters[i]? with
  | none => (0, s)
  | some c =>
      let id := c + 1
      let tid := s.nextTimeout
      (id,
        { s with
          counters := s.counters.set i id
          timers := s.timers ++ [(tid, i, id)]
          rafHandles := mapSet s.rafHandles id (some tid)
          nextTimeout := tid + 1 })

/-- The `cancelAnimationFrame` closure of installation `i`
(raf.ts lines 22-28): look `id` up in the module-level map; when present,
`clearTimeout` the stored timer and delete the entry; otherwise do
nothing.  The closure body mentions only the module-level `rafHandles`,
so the installation index is unused. -/
def cancelAnimationFrame (_i : Nat) (h : Int) (s : RafState) : RafState :=
  match s.rafHandles h with
  | none => s
  | some tid =>
      { s with
        timers := s.timers.filter (fun t => t.1 != tid)
        rafHandles := mapSet s.rafHandles h none
        cancelled := s.cancelled ++ [h] }

/-- The host fires armed timer `tid` (the `setTimeout` action in
raf.ts lines 15-18): the timer leaves the queue; its action deletes the
captured handle from the module map and then invokes the callback (logged
in `fired`).  A `tid` with no armed timer does nothing. -/
def fireTimer (tid : Nat) (s : RafState) : RafState :=
  match s.timers.find? (fun t => t.1 == tid) with
  | none => s
  | some t =>
      { s with
        timers := s.timers.filter (fun u => u.1 != tid)
        rafHandles := mapSet s.rafHandles t.2.2 none
        fired := s.fired ++ [(t.2.1, t.2.2)] }

/-- One step of the shim's environment: install, schedule through an
installation, cancel through an installation, or a host timer firing. -/
inductive RafStep where
  | install : RafStep
  | schedule : Nat → RafStep
  | cancel : Nat → Int → RafStep
  | fire : Nat → RafStep
deriving Repr, DecidableEq

/-- Apply one step (return values discarded). -/
def rafStep (s : RafState) (st : RafStep) : RafState :=
  match st with
  | .install => (patchRAF s).2
  | .schedule i => (requestAnimationFrame i s).2
  | .cancel i h => cancelAnimationFrame i h s
  | .fire tid => fireTimer tid s

/-- Run a step sequence from the pristine module state. -/
def rafRun (steps : List RafStep) : RafState :=
  steps.foldl rafStep initialRafState

/-- Run a step sequence after a single `patchRAF` installation. -/
def rafRun1 (steps : List RafStep) : RafState :=
  steps.foldl rafStep (rafStep initialRafState .install)

/-- Steps available when exactly one installation (index 0) exists and no
further `patchRAF` call is made. -/
def isSingleInstallStep : RafStep → Bool
  | .install => false
  | .schedule i => i == 0
  | .cancel i _ => i == 0
  | .fire _ => true

/-- The handles of the invoked callbacks, in invocation order. -/
def firedHandles (s : RafState) : List Int := s.fired.map (·.2)

/-- The counter of the single installation (meaningful when
`s.counters = [c]`). -/
def rafCounter (s : RafState) : Int := s.counters.headD 0

/-- The armed timers created through installation `j`. -/
def installTimers (s : RafState) (j : Nat) : List (Nat × Nat × Int) :=
  s.timers.filter (fun t => t.2.1 == j)

/-- Schedule `n` frames in immediate succession through installation `i`,
collecting the returned handles in order. -/
def scheduleN (i : Nat) : Nat → RafState → List Int × RafState
  | 0, s => ([], s)
  | n + 1, s =>
      let r := requestAnimationFrame i s
      let rest := scheduleN i n r.2
      (r.1 :: rest.1, rest.2)

/-- The invariant of a single-installation module state: the handle map
holds exactly the scheduled-but-neither-fired-nor-cancelled handles, the
map and the armed timers are in bijection, and all bookkeeping is within
the issued range. -/
structure RafInv (s : RafState) : Prop where
  counters_shape : s.counters = [rafCounter s]
  counter_nonneg : 0 ≤ rafCounter s
  keys_low : ∀ h : Int, (s.rafHandles h).isSome = true → 1 ≤ h
  keys_high : ∀ h : Int, (s.rafHandles h).isSome = true → h ≤ rafCounter s
  keys_not_cancelled : ∀ h : Int, (s.rafHandles h).isSome = true → h ∉ s.cancelled
  keys_not_fired : ∀ h : Int, (s.rafHandles h).isSome = true → h ∉ firedHandles s
  complete : ∀ h : Int, 1 ≤ h → h ≤ rafCounter s → h ∉ s.cancelled →
    h ∉ firedHandles s → (s.rafHandles h).isSome = true
  timers_inst : ∀ t ∈ s.timers, t.2.1 = 0
  timers_map : ∀ t ∈ s.timers, s.rafHandles t.2.2 = some t.1
  map_timers : ∀ h tid, s.rafHandles h = some tid → (tid, 0, h) ∈ s.timers
  map_inj : ∀ h h' tid, s.rafHandles h = some tid → s.rafHandles h' = some tid → h = h'
  timers_fresh : ∀ t ∈ s.timers, t.1 < s.nextTimeout
  fired_low : ∀ q ∈ s.fired, 1 ≤ q.2
  fired_high : ∀ q ∈ s.fired, q.2 ≤ rafCounter s
  cancelled_low : ∀ x ∈ s.cancelled, 1 ≤ x
  cancelled_high : ∀ x ∈ s.cancelled, x ≤ rafCounter s
  fired_not_cancelled : ∀ q ∈ s.fired, q.2 ∉ s.cancelled

/-! ## Helper lemmas: property maps and `defineProperty` -/

theorem propUpdate_self (m : PropMap) (k : String) (d : PropDesc) :
    propUpdate m k d k = some d := by
  simp [propUpdate]

theorem propUpdate_other (m : PropMap) (k k' : String) (d : PropDesc) (h : k' ≠ k) :
    propUpdate m k d k' = m k' := by
  simp [propUpdate, h]

theorem propUpdate_eq_self (m : PropMap) (k : String) (d : PropDesc) (h : m k = some d) :
    propUpdate m k d = m := by
  funext x
  by_cases hx : x = k
  · subst hx; simp [propUpdate, h]
  · simp [propUpdate, hx]

theorem defineProperty_ok_self {m m' : PropMap} {k : String} {v : JsValue} {w : Bool}
    (hdef : defineProperty m k
      { value := some v, writable := some w, configurable := some true } = .ok m') :
    m' k = some { value := v, writable := w, configurable := true } := by
  unfold defineProperty at hdef
  split at hdef
  · cases hdef
    simp [propUpdate]
  · split at hdef
    · cases hdef
      simp [propUpdate]
    · simp at hdef

theorem defineProperty_ok_other {m m' : PropMap} {k k' : String} {d : DescArg}
    (hdef : defineProperty m k d = .ok m') (h : k' ≠ k) :
    m' k' = m k' := by
  unfold defineProperty at hdef
  split at hdef
  · cases hdef
    simp [propUpdate, h]
  · split at hdef
    · cases hdef
      simp [propUpdate, h]
    · split at hdef
      · simp at hdef
      · split at hdef
        · simp at hdef
        · split at hdef
          · simp at hdef
          · cases hdef
            simp [propUpdate, h]

theorem defineProperty_same {m : PropMap} {k : String} {v : JsValue} {w : Bool}
    (h : m k = some { value := v, writable := w, configurable := true }) :
    defineProperty m k
      { value := some v, writable := some w, configurable := some true } = .ok m := by
  unfold defineProperty
  rw [h]
  simp [propUpdate_eq_self m k _ h]

theorem patchViewportSizes_ok_lookup {m m' : PropMap}
    (h : patchViewportSizes m = .ok m') :
    m' "innerWidth" = some { value := .num 1280, writable := true, configurable := true } ∧
    m' "innerHeight" = some { value := .num 720, writable := true, configurable := true } := by
  unfold patchViewportSizes at h
  split at h
  · simp at h
  · rename_i m1 heq
    refine ⟨?_, defineProperty_ok_self h⟩
    rw [defineProperty_ok_other h (by decide)]
    exact defineProperty_ok_self heq

theorem patchViewportSizes_idem {m m' : PropMap}
    (h : patchViewportSizes m = .ok m') : patchViewportSizes m' = .ok m' := by
  obtain ⟨hw, hh⟩ := patchViewportSizes_ok_lookup h
  unfold patchViewportSizes
  rw [defineProperty_same hw]
  exact defineProperty_same hh

theorem patchGeometry_ok_win {t t' : GeomTarget} (h : patchGeometry t = .ok t') :
    t'.winProps "innerWidth" = some { value := .num 1280, writable := true, configurable := true } ∧
    t'.winProps "innerHeight" = some { value := .num 720, writable := true, configurable := true } := by
  unfold patchGeometry at h
  split at h
  · simp at h
  · split at h
    · simp at h
    · rename_i w1 hw1
      split at h
      · simp at h
      · rename_i w2 hw2
        cases h
        refine ⟨?_, defineProperty_ok_self hw2⟩
        rw [show ({ protoProps := _, winProps := w2, nextFnId := _ } : GeomTarget).winProps = w2 from rfl]
        rw [defineProperty_ok_other hw2 (by decide)]
        exact defineProperty_ok_self hw1

theorem getProp_setProp_writable {m : PropMap} {k : String} {v0 : JsValue} {c : Bool}
    (h : m k = some { value := v0, writable := true, configurable := c }) (v : JsValue) :
    getProp (setProp m k v) k = some v := by
  unfold setProp
  rw [h]
  simp [getProp, propUpdate]

/-! ## Claim theorems: geometry, location, resize observer -/

/-- Claim C2 counterexample: the first application of the geometry patch
to a target without prior overrides succeeds, but re-applying it raises a
`TypeError` — the bounding-rect override was created non-configurable and
non-writable, and the second application supplies a distinct function
object.  This refutes "raises no error on repeat application". -/
theorem c2_counterexample :
    exceptIsOk (patchGeometry freshGeomTarget) = true ∧
    patchGeometryTwice freshGeomTarget = .error "TypeError" :=
  ⟨rfl, rfl⟩

/-- Claim C2, amended: re-applying the animation-frame and resize-observer
patches replaces the overrides without error, and the geometry patch's
viewport-size definitions are idempotent; but re-applying the geometry
patch (hence the composer) to the same target raises a `TypeError` on the
bounding-rect override instead of being idempotent. -/
theorem c2_amended :
    (∀ m m' : PropMap, patchViewportSizes m = .ok m' → patchViewportSizes m' = .ok m') ∧
    (∀ w : ROWindow, patchResizeObserver (patchResizeObserver w) = patchResizeObserver w) ∧
    (∀ s : RafState, ((patchRAF s).2).counters = s.counters ++ [0]) ∧
    patchGeometryTwice freshGeomTarget = .error "TypeError" :=
  ⟨fun _ _ h => patchViewportSizes_idem h, fun _ => rfl, fun _ => rfl, rfl⟩

/-- Witness for C2's amended theorem: the viewport-size definitions
succeed on an empty window and are idempotent on their own output. -/
theorem c2_amended_witness :
    patchViewportSizes emptyPropMap = .ok viewportOnceMap ∧
    patchViewportSizes viewportOnceMap = .ok viewportOnceMap :=
  ⟨rfl, c2_amended.1 emptyPropMap viewportOnceMap rfl⟩

/-- Claim C8: after a successful installation of the geometry patch, the
bounding-rect override returns exactly the fixed rectangle for every
element whatever its prior state, the two viewport-size properties read
1280 and 720, and both remain externally overridable — assigning any new
value and reading it back returns the new value. -/
theorem c8_geometry_values {α : Type} (t t' : GeomTarget)
    (ht : patchGeometry t = .ok t') :
    (∀ e : α, getBoundingClientRectImpl e =
      { width := 100, height := 50, top := 0, left := 0
        bottom := 50, right := 100, x := 0, y := 0 }) ∧
    getProp t'.winProps "innerWidth" = some (.num 1280) ∧
    getProp t'.winProps "innerHeight" = some (.num 720) ∧
    (∀ v : JsValue, getProp (setProp t'.winProps "innerWidth" v) "innerWidth" = some v) ∧
    (∀ v : JsValue, getProp (setProp t'.winProps "innerHeight" v) "innerHeight" = some v) := by
  obtain ⟨hw, hh⟩ := patchGeometry_ok_win ht
  refine ⟨fun _ => rfl, ?_, ?_, ?_, ?_⟩
  · rw [getProp, hw]; rfl
  · rw [getProp, hh]; rfl
  · exact fun v => getProp_setProp_writable hw v
  · exact fun v => getProp_setProp_writable hh v

/-- Witness for C8's theorem: the geometry patch succeeds on a fresh
target and installs the 1280 viewport width there. -/
theorem c8_witness :
    patchGeometry freshGeomTarget = .ok patchedGeomTarget ∧
    getProp patchedGeomTarget.winProps "innerWidth" = some (.num 1280) :=
  ⟨rfl, (c8_geometry_values (α := Unit) freshGeomTarget patchedGeomTarget rfl).2.1⟩

/-- Claim C3 counterexample: the snapshot returned by `getLocationInfo`
has nine fields (`href`, `origin`, `protocol`, `host`, `hostname`,
`port`, `pathname`, `search`, `hash`), not the eight the claim states. -/
theorem c3_counterexample :
    (locationInfoFields (getLocationInfo exampleLocation)).length = 9 ∧
    (locationInfoFields (getLocationInfo exampleLocation)).length ≠ 8 := by
  exact ⟨rfl, by decide⟩

/-- Claim C3, amended: `getLocationInfo` returns a record snapshot of
nine fields — full URL, origin, protocol, host, hostname, port, path,
query string, and fragment — each copied verbatim from the location at
call time; the snapshot is a fresh record of copies, so later changes to
the location cannot alter it. -/
theorem c3_amended (loc : Location) :
    locationInfoFields (getLocationInfo loc) =
      [loc.href, loc.origin, loc.protocol, loc.host, loc.hostname, loc.port,
        loc.pathname, loc.search, loc.hash] ∧
    (locationInfoFields (getLocationInfo loc)).length = 9 :=
  ⟨rfl, rfl⟩

/-- Claim C9: `hasValidLocation` is true exactly when `location.href` is
not the `about:blank` sentinel; `patchLocation` emits exactly one warning
when it is and none otherwise, and returns with the window unchanged. -/
theorem c9_location_validation (w : LocWindow) :
    (hasValidLocation w = true ↔ w.location.href ≠ "about:blank") ∧
    ((patchLocation w).1 =
      if w.location.href = "about:blank" then [locationWarnText] else []) ∧
    (patchLocation w).2 = w := by
  refine ⟨?_, ?_, ?_⟩
  · simp [hasValidLocation]
  · unfold patchLocation
    split <;> rfl
  · unfold patchLocation
    split <;> rfl

/-- Claim C7: `observe` performs exactly one callback invocation before
returning, whose entry list is the single element with the observed
target and a 100 by 100 content rect; `disconnect` and `unobserve`
perform none, whatever the observer's state. -/
theorem c7_observe_synchronous {α κ : Type} (o : FakeResizeObserver κ) (el : α) :
    o.observe el =
      [{ callback := o.cb
         entries := [{ target := el, contentRect := { width := 100, height := 100 } }]
         observerArg := o }] ∧
    (o.observe el).length = 1 ∧
    FakeResizeObserver.disconnect α o = [] ∧
    FakeResizeObserver.unobserve α o = [] :=
  ⟨rfl, rfl, rfl, rfl⟩

/-- Claim C10: the constructor stores the supplied callback and performs
no invocation; every `observe`-triggered invocation calls the stored
callback and passes the observer instance itself as the second argument. -/
theorem c10_constructor_stores_callback {α κ : Type} (cb : κ)
    (o : FakeResizeObserver κ) (el : α) :
    (FakeResizeObserver.construct cb).cb = cb ∧
    FakeResizeObserver.constructCalls α cb = [] ∧
    (o.observe el).map (fun c => c.observerArg) = [o] ∧
    (o.observe el).map (fun c => c.callback) = [o.cb] :=
  ⟨rfl, rfl, rfl, rfl⟩

/-! ## Helper lemmas: the animation-frame shim -/

theorem mapSet_self (m : Int → Option Nat) (k : Int) (v : Option Nat) :
    mapSet m k v k = v := by
  simp [mapSet]

theorem mapSet_other (m : Int → Option Nat) (k x : Int) (v : Option Nat) (h : x ≠ k) :
    mapSet m k v x = m x := by
  simp [mapSet, h]

theorem list_getElem?_set_self {α : Type} (l : List α) (i : Nat) (a : α)
    (h : i < l.length) : (l.set i a)[i]? = some a := by
  induction l generalizing i with
  | nil => simp at h
  | cons x xs ih =>
      cases i with
      | zero => simp [List.set]
      | succ n =>
          simp only [List.set, List.getElem?_cons_succ]
          exact ih n (by simpa using h)

theorem list_getElem?_set_other {α : Type} (l : List α) (i j : Nat) (a : α)
    (h : j ≠ i) : (l.set i a)[j]? = l[j]? := by
  induction l generalizing i j with
  | nil => simp
  | cons x xs ih =>
      cases i with
      | zero =>
          cases j with
          | zero => exact absurd rfl h
          | succ m => simp [List.set]
      | succ n =>
          cases j with
          | zero => simp [List.set]
          | succ m =>
              simp only [List.set, List.getElem?_cons_succ]
              exact ih n m (by omega)

theorem rafInv_init : RafInv (rafStep initialRafState RafStep.install) := by
  constructor
  case counters_shape => rfl
  case counter_nonneg => exact le_refl 0
  case keys_low => intro h hs; simp [rafStep, patchRAF, initialRafState] at hs
  case keys_high => intro h hs; simp [rafStep, patchRAF, initialRafState] at hs
  case keys_not_cancelled => intro h hs; simp [rafStep, patchRAF, initialRafState] at hs
  case keys_not_fired => intro h hs; simp [rafStep, patchRAF, initialRafState] at hs
  case complete =>
      intro h h1 h2 _ _
      exact absurd (le_trans h1 h2) (by decide)
  case timers_inst => intro t ht; simp [rafStep, patchRAF, initialRafState] at ht
  case timers_map => intro t ht; simp [rafStep, patchRAF, initialRafState] at ht
  case map_timers => intro h tid hmap; simp [rafStep, patchRAF, initialRafState] at hmap
  case map_inj => intro h h' tid hm _; simp [rafStep, patchRAF, initialRafState] at hm
  case timers_fresh => intro t ht; simp [rafStep, patchRAF, initialRafState] at ht
  case fired_low => intro q hq; simp [rafStep, patchRAF, initialRafState] at hq
  case fired_high => intro q hq; simp [rafStep, patchRAF, initialRafState] at hq
  case cancelled_low => intro x hx; simp [rafStep, patchRAF, initialRafState] at hx
  case cancelled_high => intro x hx; simp [rafStep, patchRAF, initialRafState] at hx
  case fired_not_cancelled => intro q hq; simp [rafStep, patchRAF, initialRafState] at hq

theorem rafInv_schedule {s : RafState} (inv : RafInv s) :
    RafInv (rafStep s (RafStep.schedule 0)) := by
  have hc : s.counters[0]? = some (rafCounter s) := by
    rw [inv.counters_shape]; rfl
  have hcnt : (rafStep s (RafStep.schedule 0)).counters = [rafCounter s + 1] := by
    simp [rafStep, requestAnimationFrame, hc]
    rw [inv.counters_shape]
    rfl
  have hrc : rafCounter (rafStep s (RafStep.schedule 0)) = rafCounter s + 1 := by
    rw [rafCounter, hcnt]; rfl
  have hmapn : (rafStep s (RafStep.schedule 0)).rafHandles =
      mapSet s.rafHandles (rafCounter s + 1) (some s.nextTimeout) := by
    simp [rafStep, requestAnimationFrame, hc]
  have htms : (rafStep s (RafStep.schedule 0)).timers =
      s.timers ++ [(s.nextTimeout, 0, rafCounter s + 1)] := by
    simp [rafStep, requestAnimationFrame, hc]
  have hnt : (rafStep s (RafStep.schedule 0)).nextTimeout = s.nextTimeout + 1 := by
    simp [rafStep, requestAnimationFrame, hc]
  have hfr : (rafStep s (RafStep.schedule 0)).fired = s.fired := by
    simp [rafStep, requestAnimationFrame, hc]
  have hcl : (rafStep s (RafStep.schedule 0)).cancelled = s.cancelled := by
    simp [rafStep, requestAnimationFrame, hc]
  have hfrh : firedHandles (rafStep s (RafStep.schedule 0)) = firedHandles s := by
    rw [firedHandles, hfr]; rfl
  constructor
  case counters_shape => rw [hcnt, hrc]
  case counter_nonneg => rw [hrc]; have := inv.counter_nonneg; omega
  case keys_low =>
      intro h hs
      rw [hmapn] at hs
      by_cases hh : h = rafCounter s + 1
      · have := inv.counter_nonneg; omega
      · rw [mapSet_other _ _ _ _ hh] at hs
        exact inv.keys_low h hs
  case keys_high =>
      intro h hs
      rw [hmapn] at hs
      rw [hrc]
      by_cases hh : h = rafCounter s + 1
      · omega
      · rw [mapSet_other _ _ _ _ hh] at hs
        have := inv.keys_high h hs
        omega
  case keys_not_cancelled =>
      intro h hs
      rw [hmapn] at hs
      rw [hcl]
      by_cases hh : h = rafCounter s + 1
      · subst hh
        intro hmem
        have := inv.cancelled_high _ hmem
        omega
      · rw [mapSet_other _ _ _ _ hh] at hs
        exact inv.keys_not_cancelled h hs
  case keys_not_fired =>
      intro h hs
      rw [hmapn] at hs
      rw [hfrh]
      by_cases hh : h = rafCounter s + 1
      · subst hh
        intro hmem
        rw [firedHandles] at hmem
        obtain ⟨q, hq, hq2⟩ := List.mem_map.mp hmem
        have := inv.fired_high q hq
        omega
      · rw [mapSet_other _ _ _ _ hh] at hs
        exact inv.keys_not_fired h hs
  case complete =>
      intro h h1 h2 hnc hnf
      rw [hrc] at h2
      rw [hcl] at hnc
      rw [hfrh] at hnf
      rw [hmapn]
      by_cases hh : h = rafCounter s + 1
      · subst hh
        rw [mapSet_self]
        rfl
      · rw [mapSet_other _ _ _ _ hh]
        exact inv.complete h h1 (by omega) hnc hnf
  case timers_inst =>
      intro t ht
      rw [htms] at ht
      rcases List.mem_append.mp ht with hold | hnew
      · exact inv.timers_inst t hold
      · rw [List.mem_singleton.mp hnew]
  case timers_map =>
      intro t ht
      rw [htms] at ht
      rw [hmapn]
      rcases List.mem_append.mp ht with hold | hnew
      · have hm := inv.timers_map t hold
        have hne : t.2.2 ≠ rafCounter s + 1 := by
          have : (s.rafHandles t.2.2).isSome = true := by rw [hm]; rfl
          have := inv.keys_high _ this
          omega
        rw [mapSet_other _ _ _ _ hne]
        exact hm
      · rw [List.mem_singleton.mp hnew]
        rw [mapSet_self]
  case map_timers =>
      intro h tid hmap
      rw [hmapn] at hmap
      rw [htms]
      by_cases hh : h = rafCounter s + 1
      · subst hh
        rw [mapSet_self] at hmap
        have : tid = s.nextTimeout := by
          exact (Option.some.injEq _ _ ▸ hmap).symm
        subst this
        exact List.mem_append.mpr (Or.inr (List.mem_singleton.mpr rfl))
      · rw [mapSet_other _ _ _ _ hh] at hmap
        exact List.mem_append.mpr (Or.inl (inv.map_timers h tid hmap))
  case map_inj =>
      intro h h' tid hm hm'
      rw [hmapn] at hm hm'
      by_cases hh : h = rafCounter s + 1
      · by_cases hh' : h' = rafCounter s + 1
        · rw [hh, hh']
        · exfalso
          rw [hh, mapSet_self] at hm
          rw [mapSet_other _ _ _ _ hh'] at hm'
          have htid : tid = s.nextTimeout := by
            exact (Option.some.injEq _ _ ▸ hm).symm
          have := inv.map_timers h' tid hm'
          have := inv.timers_fresh _ this
          simp only at this
          omega
      · by_cases hh' : h' = rafCounter s + 1
        · exfalso
          rw [hh', mapSet_self] at hm'
          rw [mapSet_other _ _ _ _ hh] at hm
          have htid : tid = s.nextTimeout := by
            exact (Option.some.injEq _ _ ▸ hm').symm
          have := inv.map_timers h tid hm
          have := inv.timers_fresh _ this
          simp only at this
          omega
        · rw [mapSet_other _ _ _ _ hh] at hm
          rw [mapSet_other _ _ _ _ hh'] at hm'
          exact inv.map_inj h h' tid hm hm'
  case timers_fresh =>
      intro t ht
      rw [htms] at ht
      rw [hnt]
      rcases List.mem_append.mp ht with hold | hnew
      · have := inv.timers_fresh t hold
        omega
      · rw [List.mem_singleton.mp hnew]
        omega
  case fired_low =>
      intro q hq
      rw [hfr] at hq
      exact inv.fired_low q hq
  case fired_high =>
      intro q hq
      rw [hfr] at hq
      rw [hrc]
      have := inv.fired_high q hq
      omega
  case cancelled_low =>
      intro x hx
      rw [hcl] at hx
      exact inv.cancelled_low x hx
  case cancelled_high =>
      intro x hx
      rw [hcl] at hx
      rw [hrc]
      have := inv.cancelled_high x hx
      omega
  case fired_not_cancelled =>
      intro q hq
      rw [hfr] at hq
      rw [hcl]
      exact inv.fired_not_cancelled q hq

theorem rafInv_cancel {s : RafState} (inv : RafInv s) (i : Nat) (h0 : Int) :
    RafInv (rafStep s (RafStep.cancel i h0)) := by
  cases hm : s.rafHandles h0 with
  | none =>
      have : rafStep s (RafStep.cancel i h0) = s := by
        simp [rafStep, cancelAnimationFrame, hm]
      rw [this]
      exact inv
  | some tid =>
      have hh0s : (s.rafHandles h0).isSome = true := by rw [hm]; rfl
      have h0low := inv.keys_low h0 hh0s
      have h0high := inv.keys_high h0 hh0s
      have h0nc := inv.keys_not_cancelled h0 hh0s
      have h0nf := inv.keys_not_fired h0 hh0s
      have hcnt : (rafStep s (RafStep.cancel i h0)).counters = s.counters := by
        simp [rafStep, cancelAnimationFrame, hm]
      have hrc : rafCounter (rafStep s (RafStep.cancel i h0)) = rafCounter s := by
        rw [rafCounter, hcnt]; rfl
      have hmapn : (rafStep s (RafStep.cancel i h0)).rafHandles =
          mapSet s.rafHandles h0 none := by
        simp [rafStep, cancelAnimationFrame, hm]
      have htms : (rafStep s (RafStep.cancel i h0)).timers =
          s.timers.filter (fun t => t.1 != tid) := by
        simp [rafStep, cancelAnimationFrame, hm]
      have hnt : (rafStep s (RafStep.cancel i h0)).nextTimeout = s.nextTimeout := by
        simp [rafStep, cancelAnimationFrame, hm]
      have hfr : (rafStep s (RafStep.cancel i h0)).fired = s.fired := by
        simp [rafStep, cancelAnimationFrame, hm]
      have hcl : (rafStep s (RafStep.cancel i h0)).cancelled = s.cancelled ++ [h0] := by
        simp [rafStep, cancelAnimationFrame, hm]
      have hfrh : firedHandles (rafStep s (RafStep.cancel i h0)) = firedHandles s := by
        rw [firedHandles, hfr]; rfl
      constructor
      case counters_shape => rw [hcnt, hrc]; exact inv.counters_shape
      case counter_nonneg => rw [hrc]; exact inv.counter_nonneg
      case keys_low =>
          intro h hs
          rw [hmapn] at hs
          by_cases hh : h = h0
          · subst hh; rw [mapSet_self] at hs; simp at hs
          · rw [mapSet_other _ _ _ _ hh] at hs
            exact inv.keys_low h hs
      case keys_high =>
          intro h hs
          rw [hmapn] at hs
          rw [hrc]
          by_cases hh : h = h0
          · subst hh; rw [mapSet_self] at hs; simp at hs
          · rw [mapSet_other _ _ _ _ hh] at hs
            exact inv.keys_high h hs
      case keys_not_cancelled =>
          intro h hs
          rw [hmapn] at hs
          rw [hcl]
          by_cases hh : h = h0
          · subst hh; rw [mapSet_self] at hs; simp at hs
          · rw [mapSet_other _ _ _ _ hh] at hs
            intro hmem
            rcases List.mem_append.mp hmem with hold | hnew
            · exact inv.keys_not_cancelled h hs hold
            · exact hh (List.mem_singleton.mp hnew)
      case keys_not_fired =>
          intro h hs
          rw [hmapn] at hs
          rw [hfrh]
          by_cases hh : h = h0
          · subst hh; rw [mapSet_self] at hs; simp at hs
          · rw [mapSet_other _ _ _ _ hh] at hs
            exact inv.keys_not_fired h hs
      case complete =>
          intro h h1 h2 hnc hnf
          rw [hrc] at h2
          rw [hcl] at hnc
          rw [hfrh] at hnf
          rw [hmapn]
          have hh : h ≠ h0 := by
            intro he
            exact hnc (List.mem_append.mpr (Or.inr (List.mem_singleton.mpr he)))
          rw [mapSet_other _ _ _ _ hh]
          exact inv.complete h h1 h2 (fun hmem =>
            hnc (List.mem_append.mpr (Or.inl hmem))) hnf
      case timers_inst =>
          intro t ht
          rw [htms] at ht
          exact inv.timers_inst t (List.mem_filter.mp ht).1
      case timers_map =>
          intro t ht
          rw [htms] at ht
          rw [hmapn]
          obtain ⟨htmem, htne⟩ := List.mem_filter.mp ht
          have htne' : t.1 ≠ tid := by simpa using htne
          have hmapt := inv.timers_map t htmem
          have hne : t.2.2 ≠ h0 := by
            intro he
            rw [he, hm] at hmapt
            exact htne' (Option.some.injEq _ _ ▸ hmapt).symm
          rw [mapSet_other _ _ _ _ hne]
          exact hmapt
      case map_timers =>
          intro h tid' hmap
          rw [hmapn] at hmap
          rw [htms]
          by_cases hh : h = h0
          · subst hh; rw [mapSet_self] at hmap; simp at hmap
          · rw [mapSet_other _ _ _ _ hh] at hmap
            have hmem := inv.map_timers h tid' hmap
            have hne : tid' ≠ tid := by
              intro he
              exact hh (inv.map_inj h h0 tid (he ▸ hmap) hm)
            exact List.mem_filter.mpr ⟨hmem, by simpa using hne⟩
      case map_inj =>
          intro h h' tid' hma hmb
          rw [hmapn] at hma hmb
          by_cases hh : h = h0
          · subst hh; rw [mapSet_self] at hma; simp at hma
          · by_cases hh' : h' = h0
            · subst hh'; rw [mapSet_self] at hmb; simp at hmb
            · rw [mapSet_other _ _ _ _ hh] at hma
              rw [mapSet_other _ _ _ _ hh'] at hmb
              exact inv.map_inj h h' tid' hma hmb
      case timers_fresh =>
          intro t ht
          rw [htms] at ht
          rw [hnt]
          exact inv.timers_fresh t (List.mem_filter.mp ht).1
      case fired_low =>
          intro q hq
          rw [hfr] at hq
          exact inv.fired_low q hq
      case fired_high =>
          intro q hq
          rw [hfr] at hq
          rw [hrc]
          exact inv.fired_high q hq
      case cancelled_low =>
          intro x hx
          rw [hcl] at hx
          rcases List.mem_append.mp hx with hold | hnew
          · exact inv.cancelled_low x hold
          · rw [List.mem_singleton.mp hnew]; exact h0low
      case cancelled_high =>
          intro x hx
          rw [hcl] at hx
          rw [hrc]
          rcases List.mem_append.mp hx with hold | hnew
          · exact inv.cancelled_high x hold
          · rw [List.mem_singleton.mp hnew]; exact h0high
      case fired_not_cancelled =>
          intro q hq
          rw [hfr] at hq
          rw [hcl]
          intro hmem
          rcases List.mem_append.mp hmem with hold | hnew
          · exact inv.fired_not_cancelled q hq hold
          · refine h0nf ?_
            rw [firedHandles]
            exact List.mem_map.mpr ⟨q, hq, List.mem_singleton.mp hnew⟩

theorem rafInv_fire {s : RafState} (inv : RafInv s) (tid0 : Nat) :
    RafInv (rafStep s (RafStep.fire tid0)) := by
  cases hf : s.timers.find? (fun t => t.1 == tid0) with
  | none =>
      have : rafStep s (RafStep.fire tid0) = s := by
        simp [rafStep, fireTimer, hf]
      rw [this]
      exact inv
  | some t =>
      have htmem : t ∈ s.timers := List.mem_of_find?_eq_some hf
      have htid : t.1 = tid0 := by
        have := List.find?_some hf
        simpa using this
      have hmapt : s.rafHandles t.2.2 = some t.1 := inv.timers_map t htmem
      have hh0s : (s.rafHandles t.2.2).isSome = true := by rw [hmapt]; rfl
      have h0low := inv.keys_low _ hh0s
      have h0high := inv.keys_high _ hh0s
      have h0nc := inv.keys_not_cancelled _ hh0s
      have h0nf := inv.keys_not_fired _ hh0s
      have hcnt : (rafStep s (RafStep.fire tid0)).counters = s.counters := by
        simp [rafStep, fireTimer, hf]
      have hrc : rafCounter (rafStep s (RafStep.fire tid0)) = rafCounter s := by
        rw [rafCounter, hcnt]; rfl
      have hmapn : (rafStep s (RafStep.fire tid0)).rafHandles =
          mapSet s.rafHandles t.2.2 none := by
        simp [rafStep, fireTimer, hf]
      have htms : (rafStep s (RafStep.fire tid0)).timers =
          s.timers.filter (fun u => u.1 != tid0) := by
        simp [rafStep, fireTimer, hf]
      have hnt : (rafStep s (RafStep.fire tid0)).nextTimeout = s.nextTimeout := by
        simp [rafStep, fireTimer, hf]
      have hfr : (rafStep s (RafStep.fire tid0)).fired = s.fired ++ [(t.2.1, t.2.2)] := by
        simp [rafStep, fireTimer, hf]
      have hcl : (rafStep s (RafStep.fire tid0)).cancelled = s.cancelled := by
        simp [rafStep, fireTimer, hf]
      have hfrh : firedHandles (rafStep s (RafStep.fire tid0)) =
          firedHandles s ++ [t.2.2] := by
        rw [firedHandles, hfr]
        simp [firedHandles]
      constructor
      case counters_shape => rw [hcnt, hrc]; exact inv.counters_shape
      case counter_nonneg => rw [hrc]; exact inv.counter_nonneg
      case keys_low =>
          intro h hs
          rw [hmapn] at hs
          by_cases hh : h = t.2.2
          · subst hh; rw [mapSet_self] at hs; simp at hs
          · rw [mapSet_other _ _ _ _ hh] at hs
            exact inv.keys_low h hs
      case keys_high =>
          intro h hs
          rw [hmapn] at hs
          rw [hrc]
          by_cases hh : h = t.2.2
          · subst hh; rw [mapSet_self] at hs; simp at hs
          · rw [mapSet_other _ _ _ _ hh] at hs
            exact inv.keys_high h hs
      case keys_not_cancelled =>
          intro h hs
          rw [hmapn] at hs
          rw [hcl]
          by_cases hh : h = t.2.2
          · subst hh; rw [mapSet_self] at hs; simp at hs
          · rw [mapSet_other _ _ _ _ hh] at hs
            exact inv.keys_not_cancelled h hs
      case keys_not_fired =>
          intro h hs
          rw [hmapn] at hs
          rw [hfrh]
          by_cases hh : h = t.2.2
          · subst hh; rw [mapSet_self] at hs; simp at hs
          · rw [mapSet_other _ _ _ _ hh] at hs
            intro hmem
            rcases List.mem_append.mp hmem with hold | hnew
            · exact inv.keys_not_fired h hs hold
            · exact hh (List.mem_singleton.mp hnew)
      case complete =>
          intro h h1 h2 hnc hnf
          rw [hrc] at h2
          rw [hcl] at hnc
          rw [hfrh] at hnf
          rw [hmapn]
          have hh : h ≠ t.2.2 := by
            intro he
            exact hnf (List.mem_append.mpr (Or.inr (List.mem_singleton.mpr he)))
          rw [mapSet_other _ _ _ _ hh]
          exact inv.complete h h1 h2 hnc (fun hmem =>
            hnf (List.mem_append.mpr (Or.inl hmem)))
      case timers_inst =>
          intro u hu
          rw [htms] at hu
          exact inv.timers_inst u (List.mem_filter.mp hu).1
      case timers_map =>
          intro u hu
          rw [htms] at hu
          rw [hmapn]
          obtain ⟨humem, hune⟩ := List.mem_filter.mp hu
          have hune' : u.1 ≠ tid0 := by simpa using hune
          have hmapu := inv.timers_map u humem
          have hne : u.2.2 ≠ t.2.2 := by
            intro he
            rw [he, hmapt] at hmapu
            exact hune' (htid ▸ (Option.some.injEq _ _ ▸ hmapu).symm)
          rw [mapSet_other _ _ _ _ hne]
          exact hmapu
      case map_timers =>
          intro h tid' hmap
          rw [hmapn] at hmap
          rw [htms]
          by_cases hh : h = t.2.2
          · subst hh; rw [mapSet_self] at hmap; simp at hmap
          · rw [mapSet_other _ _ _ _ hh] at hmap
            have hmem := inv.map_timers h tid' hmap
            have hne : tid' ≠ tid0 := by
              intro he
              refine hh (inv.map_inj h t.2.2 tid' hmap ?_)
              rw [hmapt, htid, he]
            exact List.mem_filter.mpr ⟨hmem, by simpa using hne⟩
      case map_inj =>
          intro h h' tid' hma hmb
          rw [hmapn] at hma hmb
          by_cases hh : h = t.2.2
          · subst hh; rw [mapSet_self] at hma; simp at hma
          · by_cases hh' : h' = t.2.2
            · subst hh'; rw [mapSet_self] at hmb; simp at hmb
            · rw [mapSet_other _ _ _ _ hh] at hma
              rw [mapSet_other _ _ _ _ hh'] at hmb
              exact inv.map_inj h h' tid' hma hmb
      case timers_fresh =>
          intro u hu
          rw [htms] at hu
          rw [hnt]
          exact inv.timers_fresh u (List.mem_filter.mp hu).1
      case fired_low =>
          intro q hq
          rw [hfr] at hq
          rcases List.mem_append.mp hq with hold | hnew
          · exact inv.fired_low q hold
          · rw [List.mem_singleton.mp hnew]; exact h0low
      case fired_high =>
          intro q hq
          rw [hfr] at hq
          rw [hrc]
          rcases List.mem_append.mp hq with hold | hnew
          · exact inv.fired_high q hold
          · rw [List.mem_singleton.mp hnew]; exact h0high
      case cancelled_low =>
          intro x hx
          rw [hcl] at hx
          exact inv.cancelled_low x hx
      case cancelled_high =>
          intro x hx
          rw [hcl] at hx
          rw [hrc]
          exact inv.cancelled_high x hx
      case fired_not_cancelled =>
          intro q hq
          rw [hfr] at hq
          rw [hcl]
          rcases List.mem_append.mp hq with hold | hnew
          · exact inv.fired_not_cancelled q hold
          · rw [List.mem_singleton.mp hnew]
            exact h0nc

theorem rafInv_preserved {s : RafState} (inv : RafInv s) {st : RafStep}
    (hst : isSingleInstallStep st = true) : RafInv (rafStep s st) := by
  cases st with
  | install => simp [isSingleInstallStep] at hst
  | schedule i =>
      have hi : i = 0 := by simpa [isSingleInstallStep] using hst
      subst hi
      exact rafInv_schedule inv
  | cancel i h =>
      exact rafInv_cancel inv i h
  | fire tid =>
      exact rafInv_fire inv tid

theorem rafInv_run {s : RafState} (inv : RafInv s) {steps : List RafStep}
    (hsteps : steps.all isSingleInstallStep = true) :
    RafInv (steps.foldl rafStep s) := by
  induction steps generalizing s with
  | nil => exact inv
  | cons st rest ih =>
      rw [List.foldl_cons]
      simp only [List.all_cons, Bool.and_eq_true] at hsteps
      obtain ⟨h1, h2⟩ := hsteps
      exact ih (rafInv_preserved inv h1) h2

theorem rafInv_rafRun1 {steps : List RafStep}
    (hsteps : steps.all isSingleInstallStep = true) : RafInv (rafRun1 steps) :=
  rafInv_run rafInv_init hsteps

theorem cancelled_mono_step (s : RafState) (st : RafStep) :
    ∀ x ∈ s.cancelled, x ∈ (rafStep s st).cancelled := by
  intro x hx
  cases st with
  | install => exact hx
  | schedule i =>
      cases hc : s.counters[i]? with
      | none => simpa [rafStep, requestAnimationFrame, hc] using hx
      | some c => simpa [rafStep, requestAnimationFrame, hc] using hx
  | cancel i h =>
      cases hm : s.rafHandles h with
      | none => simpa [rafStep, cancelAnimationFrame, hm] using hx
      | some tid =>
          have : (rafStep s (RafStep.cancel i h)).cancelled = s.cancelled ++ [h] := by
            simp [rafStep, cancelAnimationFrame, hm]
          rw [this]
          exact List.mem_append.mpr (Or.inl hx)
  | fire tid =>
      cases hf : s.timers.find? (fun t => t.1 == tid) with
      | none => simpa [rafStep, fireTimer, hf] using hx
      | some t => simpa [rafStep, fireTimer, hf] using hx

theorem cancelled_mono_run (s : RafState) (steps : List RafStep) :
    ∀ x ∈ s.cancelled, x ∈ (steps.foldl rafStep s).cancelled := by
  induction steps generalizing s with
  | nil => exact fun x hx => hx
  | cons st rest ih =>
      intro x hx
      rw [List.foldl_cons]
      exact ih (rafStep s st) x (cancelled_mono_step s st x hx)

theorem lt_length_of_getElem? {α : Type} {l : List α} {i : Nat} {a : α}
    (h : l[i]? = some a) : i < l.length := by
  by_contra hge
  rw [List.getElem?_eq_none (by omega)] at h
  simp at h

theorem raf_schedule_step {i : Nat} {s : RafState} {c : Int}
    (hc : s.counters[i]? = some c) :
    (requestAnimationFrame i s).1 = c + 1 ∧
    (requestAnimationFrame i s).2.counters[i]? = some (c + 1) := by
  have hlen : i < s.counters.length := lt_length_of_getElem? hc
  constructor
  · simp [requestAnimationFrame, hc]
  · simp only [requestAnimationFrame, hc]
    exact list_getElem?_set_self _ _ _ hlen

theorem scheduleN_mem_bounds {i : Nat} :
    ∀ (n : Nat) (s : RafState) (c : Int), s.counters[i]? = some c →
    (∀ x ∈ (scheduleN i n s).1, c + 1 ≤ x ∧ x ≤ c + n) ∧
    (scheduleN i n s).1.length = n ∧
    List.Pairwise (· < ·) (scheduleN i n s).1
  | 0, s, c, hc => by simp [scheduleN]
  | n + 1, s, c, hc => by
      obtain ⟨h1, h2⟩ := raf_schedule_step hc
      obtain ⟨ihb, ihl, ihp⟩ :=
        scheduleN_mem_bounds n (requestAnimationFrame i s).2 (c + 1) h2
      have hunfold : (scheduleN i (n + 1) s).1 =
          (requestAnimationFrame i s).1 ::
            (scheduleN i n (requestAnimationFrame i s).2).1 := rfl
      rw [hunfold, h1]
      refine ⟨?_, ?_, ?_⟩
      · intro x hx
        rcases List.mem_cons.mp hx with hx0 | hxr
        · subst hx0
          constructor <;> [omega; (push_cast; omega)]
        · have := ihb x hxr
          constructor <;> (push_cast at this ⊢; omega)
      · simp [ihl]
      · rw [List.pairwise_cons]
        refine ⟨?_, ihp⟩
        intro x hx
        have := ihb x hx
        omega

/-- Claim C6: for every N, scheduling N frames in immediate succession
through one installation whose counter reads c ≥ 0 returns N handles,
pairwise strictly increasing in issuance order (hence distinct), each a
positive integer.  A fresh installation has c = 0, so the handles are
1, 2, ..., N. -/
theorem c6_schedule_handles (s : RafState) (i : Nat) (c : Int) (n : Nat)
    (hc : s.counters[i]? = some c) (hnn : 0 ≤ c) :
    (scheduleN i n s).1.length = n ∧
    List.Pairwise (· < ·) (scheduleN i n s).1 ∧
    (∀ x ∈ (scheduleN i n s).1, 0 < x) ∧
    List.Nodup (scheduleN i n s).1 := by
  obtain ⟨hb, hl, hp⟩ := scheduleN_mem_bounds n s c hc
  refine ⟨hl, hp, ?_, ?_⟩
  · intro x hx
    have := hb x hx
    omega
  · exact List.Pairwise.imp (fun hlt => ne_of_lt hlt) hp

/-- Witness for C6's theorem: three schedules through a fresh
installation return three strictly increasing handles. -/
theorem c6_witness :
    ((rafStep initialRafState RafStep.install).counters[0]? = some 0) ∧
    (scheduleN 0 3 (rafStep initialRafState RafStep.install)).1.length = 3 ∧
    List.Pairwise (· < ·) (scheduleN 0 3 (rafStep initialRafState RafStep.install)).1 :=
  ⟨by decide,
   (c6_schedule_handles (rafStep initialRafState RafStep.install) 0 0 3
     (by decide) (by decide)).1,
   (c6_schedule_handles (rafStep initialRafState RafStep.install) 0 0 3
     (by decide) (by decide)).2.1⟩

/-- Claim C4: over one installation, after every sequence of schedule,
cancel, and timer-fire steps, a handle is in the handle table exactly
when it has been issued (1 ≤ h ≤ counter) and has neither been fired nor
been cancelled. -/
theorem c4_handle_table_iff (steps : List RafStep) (h : Int)
    (hsteps : steps.all isSingleInstallStep = true) :
    ((rafRun1 steps).rafHandles h).isSome = true ↔
      (1 ≤ h ∧ h ≤ rafCounter (rafRun1 steps) ∧
        h ∉ (rafRun1 steps).cancelled ∧ h ∉ firedHandles (rafRun1 steps)) := by
  have inv := rafInv_rafRun1 hsteps
  constructor
  · intro hs
    exact ⟨inv.keys_low h hs, inv.keys_high h hs,
      inv.keys_not_cancelled h hs, inv.keys_not_fired h hs⟩
  · rintro ⟨h1, h2, h3, h4⟩
    exact inv.complete h h1 h2 h3 h4

/-- Witness for C4's theorem: after two schedules and a cancel of handle
1, handle 2 is still in the table and satisfies the right-hand side. -/
theorem c4_witness :
    ([RafStep.schedule 0, RafStep.schedule 0, RafStep.cancel 0 1].all
      isSingleInstallStep = true) ∧
    (((rafRun1 [RafStep.schedule 0, RafStep.schedule 0,
        RafStep.cancel 0 1]).rafHandles 2).isSome = true ↔
      (1 ≤ (2 : Int) ∧
        (2 : Int) ≤ rafCounter (rafRun1 [RafStep.schedule 0, RafStep.schedule 0,
          RafStep.cancel 0 1]) ∧
        (2 : Int) ∉ (rafRun1 [RafStep.schedule 0, RafStep.schedule 0,
          RafStep.cancel 0 1]).cancelled ∧
        (2 : Int) ∉ firedHandles (rafRun1 [RafStep.schedule 0, RafStep.schedule 0,
          RafStep.cancel 0 1]))) :=
  ⟨by decide,
   c4_handle_table_iff [RafStep.schedule 0, RafStep.schedule 0, RafStep.cancel 0 1]
     2 (by decide)⟩

/-- Claim C5: over one installation, cancelling a handle whose timer has
not yet fired (it is still in the table) prevents its callback from ever
being invoked, whatever steps follow; and cancelling a handle absent from
the table — unknown, negative, already fired, or already cancelled — is
an exact no-op on the whole state (and the operation is total: it raises
nothing). -/
theorem c5_cancel_semantics :
    (∀ (pre post : List RafStep) (h : Int) (tid : Nat),
      (pre ++ RafStep.cancel 0 h :: post).all isSingleInstallStep = true →
      (rafRun1 pre).rafHandles h = some tid →
      h ∉ firedHandles (rafRun1 (pre ++ RafStep.cancel 0 h :: post))) ∧
    (∀ (i : Nat) (h : Int) (s : RafState),
      s.rafHandles h = none → cancelAnimationFrame i h s = s) := by
  constructor
  · intro pre post h tid hall hlive
    simp only [List.all_append, List.all_cons, Bool.and_eq_true] at hall
    obtain ⟨hpre, hcanc1, hpost⟩ := hall
    have hfinal : rafRun1 (pre ++ RafStep.cancel 0 h :: post) =
        post.foldl rafStep (rafStep (rafRun1 pre) (RafStep.cancel 0 h)) := by
      unfold rafRun1
      rw [List.foldl_append, List.foldl_cons]
    have invpre : RafInv (rafRun1 pre) := rafInv_rafRun1 hpre
    have hmemc : h ∈ (rafStep (rafRun1 pre) (RafStep.cancel 0 h)).cancelled := by
      have hc : (rafStep (rafRun1 pre) (RafStep.cancel 0 h)).cancelled =
          (rafRun1 pre).cancelled ++ [h] := by
        simp [rafStep, cancelAnimationFrame, hlive]
      rw [hc]
      exact List.mem_append.mpr (Or.inr (List.mem_singleton.mpr rfl))
    have hfinalcanc : h ∈ (rafRun1 (pre ++ RafStep.cancel 0 h :: post)).cancelled := by
      rw [hfinal]
      exact cancelled_mono_run _ post h hmemc
    have invfinal : RafInv (rafRun1 (pre ++ RafStep.cancel 0 h :: post)) := by
      rw [hfinal]
      exact rafInv_run (rafInv_preserved invpre hcanc1) hpost
    intro hmem
    rw [firedHandles] at hmem
    obtain ⟨q, hq, hq2⟩ := List.mem_map.mp hmem
    refine invfinal.fired_not_cancelled q hq ?_
    rw [hq2]
    exact hfinalcanc
  · intro i h s hnone
    simp [cancelAnimationFrame, hnone]

/-- Witness for C5's theorem: schedule one frame, cancel handle 1, let
the host try to fire — the callback is never invoked; and cancelling the
arbitrary integer -5 on the pristine state is a no-op. -/
theorem c5_witness :
    (([RafStep.schedule 0] ++ RafStep.cancel 0 1 :: [RafStep.fire 0]).all
      isSingleInstallStep = true) ∧
    ((1 : Int) ∉ firedHandles
      (rafRun1 ([RafStep.schedule 0] ++ RafStep.cancel 0 1 :: [RafStep.fire 0]))) ∧
    cancelAnimationFrame 7 (-5) initialRafState = initialRafState :=
  ⟨by decide,
   c5_cancel_semantics.1 [RafStep.schedule 0] [RafStep.fire 0] 1 0
     (by decide) (by decide),
   c5_cancel_semantics.2 7 (-5) initialRafState (by decide)⟩

/-- Claim C1 counterexample: the handle table is the module-level
`rafHandles`, shared by all installations.  After two installations and
one frame scheduled through installation 0, cancelling handle 1 through
installation 1 disarms installation 0's pending timer — so cancelling
through one installation does mutate the state backing the other,
refuting the claimed independence. -/
theorem c1_counterexample :
    ¬ (∀ (s : RafState) (i j : Nat) (h : Int), j ≠ i →
        installTimers (cancelAnimationFrame i h s) j = installTimers s j) := by
  intro hcl
  exact absurd
    (hcl (rafRun [RafStep.install, RafStep.install, RafStep.schedule 0]) 1 0 1
      (by decide))
    (by decide)

/-- Claim C1, amended: each installation owns its own counter — the
cancel override's behavior never depends on which installation it belongs
to, and scheduling through one installation leaves every other
installation's counter unchanged — but all installations share the single
module-level handle table: after two installations each schedule their
first frame, the table holds one entry for handle 1 (the second
installation's, which overwrote the first's) while both timers are armed. -/
theorem c1_amended :
    (∀ (s : RafState) (i j : Nat) (h : Int),
      cancelAnimationFrame i h s = cancelAnimationFrame j h s) ∧
    (∀ (s : RafState) (i j : Nat), i ≠ j →
      ((requestAnimationFrame i s).2).counters[j]? = s.counters[j]?) ∧
    ((rafRun [RafStep.install, RafStep.install, RafStep.schedule 0,
        RafStep.schedule 1]).rafHandles 1 = some 1) ∧
    (installTimers (rafRun [RafStep.install, RafStep.install, RafStep.schedule 0,
        RafStep.schedule 1]) 0 = [(0, 0, 1)]) ∧
    (installTimers (rafRun [RafStep.install, RafStep.install, RafStep.schedule 0,
        RafStep.schedule 1]) 1 = [(1, 1, 1)]) := by
  refine ⟨fun _ _ _ _ => rfl, ?_, by decide, by decide, by decide⟩
  intro s i j hij
  cases hc : s.counters[i]? with
  | none => simp [requestAnimationFrame, hc]
  | some c =>
      simp only [requestAnimationFrame, hc]
      exact list_getElem?_set_other _ _ _ _ (Ne.symm hij)

/-- Witness for C1's amended theorem: with two installations, scheduling
through installation 0 leaves installation 1's counter untouched. -/
theorem c1_amended_witness :
    ((0 : Nat) ≠ 1) ∧
    ((requestAnimationFrame 0 (rafRun [RafStep.install, RafStep.install])).2.counters[1]? =
      (rafRun [RafStep.install, RafStep.install]).counters[1]?) :=
  ⟨by decide,
   c1_amended.2.1 (rafRun [RafStep.install, RafStep.install]) 0 1 (by decide)⟩

end JsdomExtended
